import Mathlib

/-!
Verification of the PySPH example `pysph/examples/lattice_cylinders.py`
(incompressible flow past a periodic lattice of cylinders, transport-velocity
formulation).  The example file is a configuration script; the physical and
numerical constants, the particle set-up, the equation pipeline and the solver
configuration are embedded here faithfully.  Library components that the
script merely invokes (state equation, domain wrapping, integrator stepping,
solver loop) are modelled from the specification where noted.

Floating-point literals of the script are embedded as exact rationals; the
single square root (in the body-force time-step limit) is embedded over ℝ.
-/

namespace LatticeCylinders

/-! ### Domain and reference values (source lines 26-48) -/

/-- Length of the periodic box, `L = 0.1`. -/
def L : ℚ := 1/10

/-- Maximum (reference) velocity, `Umax = 5e-5`. -/
def Umax : ℚ := 5/100000

/-- Speed of sound, `c0 = 10 * Umax`. -/
def c0 : ℚ := 10 * Umax

/-- Reference density, `rho0 = 1000.0`. -/
def rho0 : ℚ := 1000

/-- Reference pressure, `p0 = c0*c0*rho0`. -/
def p0 : ℚ := c0 * c0 * rho0

/-- Cylinder radius, `a = 0.02`. -/
def a : ℚ := 2/100

/-- Height of the periodic box, `H = L`. -/
def H : ℚ := L

/-- Body force per unit mass, `fx = 1.5e-7`. -/
def fx : ℚ := 15/100000000

/-- Reynolds number, `Re = 1.0`. -/
def Re : ℚ := 1

/-- Kinematic viscosity, `nu = a*Umax/Re`. -/
def nu : ℚ := a * Umax / Re

/-- Number of lattice points per axis, `nx = 100`. -/
def nx : ℕ := 100

/-- Lattice spacing, `dx = L/nx`. -/
def dx : ℚ := L / (nx : ℚ)

/-- Ghost layer width declared by the script, `ghost_extent = 5 * 1.5 * dx`. -/
def ghost_extent : ℚ := 5 * (15/10) * dx

/-- Smoothing-length factor, `hdx = 1.0`. -/
def hdx : ℚ := 1

/-- Smoothing length, `h0 = hdx * dx`. -/
def h0 : ℚ := hdx * dx

/-- Acoustic/Courant time-step limit, `dt_cfl = 0.25 * h0/(c0 + Umax)`. -/
def dt_cfl : ℚ := (1/4) * h0 / (c0 + Umax)

/-- Viscous diffusion time-step limit, `dt_viscous = 0.125 * h0**2/nu`. -/
def dt_viscous : ℚ := (1/8) * h0 ^ 2 / nu

/-- Body-force time-step limit, `dt_force = 0.25 * np.sqrt(h0/abs(fx))`;
the square root forces this constant into ℝ. -/
noncomputable def dt_force : ℝ := (1/4) * Real.sqrt ((h0 : ℝ) / |(fx : ℝ)|)

/-- Final simulation time, `tf = 1000.0`. -/
def tf : ℚ := 1000

/-- Time step used by the solver, `dt = 0.5 * min(dt_cfl, dt_viscous, dt_force)`. -/
noncomputable def dt : ℝ := (1/2) * min (min (dt_cfl : ℝ) (dt_viscous : ℝ)) dt_force

/-! ### Concrete values of the numerical constants -/

lemma h0_val : h0 = 1/1000 := by norm_num [h0, hdx, dx, L, nx]

lemma nu_val : nu = 1/1000000 := by norm_num [nu, a, Umax, Re]

lemma dt_cfl_val : dt_cfl = 5/11 := by
  norm_num [dt_cfl, h0_val, c0, Umax]

lemma dt_viscous_val : dt_viscous = 1/8 := by
  norm_num [dt_viscous, h0_val, nu_val]

lemma fx_pos : (0 : ℚ) < fx := by norm_num [fx]

lemma dt_force_ge : (1/8 : ℝ) ≤ dt_force := by
  have harg : (h0 : ℝ) / |(fx : ℝ)| = 20000/3 := by
    rw [abs_of_pos (by exact_mod_cast fx_pos)]
    rw [h0_val]
    norm_num [fx]
  have hsq : ((1/2 : ℝ)) ≤ Real.sqrt ((h0 : ℝ) / |(fx : ℝ)|) := by
    apply Real.le_sqrt_of_sq_le
    rw [harg]; norm_num
  calc (1/8 : ℝ) = (1/4) * (1/2) := by norm_num
    _ ≤ (1/4) * Real.sqrt ((h0 : ℝ) / |(fx : ℝ)|) := by nlinarith
    _ = dt_force := rfl

lemma dt_val : dt = 1/16 := by
  have h1 : min ((dt_cfl : ℚ) : ℝ) ((dt_viscous : ℚ) : ℝ) = 1/8 := by
    rw [dt_cfl_val, dt_viscous_val]
    norm_num
  have h2 : min (min ((dt_cfl : ℚ) : ℝ) ((dt_viscous : ℚ) : ℝ)) dt_force = 1/8 := by
    rw [h1]
    exact min_eq_left dt_force_ge
  rw [dt, h2]; norm_num

lemma dt_pos : 0 < dt := by rw [dt_val]; norm_num

/-! ### Solver time loop (claims C3 and C10) -/

/-- Modelled from the spec: the state of the Solver time loop
(`pysph.solver.solver.Solver` is not under src/).  The Solver owns the
accumulated time `t` and the step size `dt`; the step size is configured once
at setup (`Solver(..., dt=dt, tf=tf)`) and carried unchanged in the state. -/
structure SolverState where
  t : ℝ
  dt : ℝ
  tf : ℝ

/-- Modelled from the spec: the Solver as created by `create_solver`, with the
fixed step size `dt` and final time `tf` from the script. -/
noncomputable def solver0 : SolverState := { t := 0, dt := dt, tf := (tf : ℝ) }

/-- Modelled from the spec: one iteration of the Solver time loop advances the
accumulated time by the stored step size; the step size is never recomputed
from instantaneous particle state. -/
def solverStep (s : SolverState) : SolverState := { s with t := s.t + s.dt }

lemma solverStep_dt (s : SolverState) : (solverStep s).dt = s.dt := rfl

lemma solver_iter_dt (n : ℕ) : (solverStep^[n] solver0).dt = dt := by
  induction n with
  | zero => rfl
  | succ k ih => rw [Function.iterate_succ_apply', solverStep_dt, ih]

lemma solver_iter_t (n : ℕ) : (solverStep^[n] solver0).t = n * dt := by
  induction n with
  | zero => simp [solver0]
  | succ k ih =>
    rw [Function.iterate_succ_apply', solverStep]
    simp only
    rw [ih, solver_iter_dt]
    push_cast
    ring

/-- C3: the time step used by the Solver is computed once at setup as one half
of the minimum of the Courant limit `0.25*h0/(c0+Umax)`, the viscous limit
`0.125*h0^2/nu` and the body-force limit `0.25*sqrt(h0/|fx|)`, and every
iteration of the Solver loop carries this same fixed `dt`, never recomputing
it. -/
theorem create_solver_dt_fixed :
    dt = (1/2) * min (min ((1/4) * (h0 : ℝ) / ((c0 : ℝ) + (Umax : ℝ)))
        ((1/8) * (h0 : ℝ) ^ 2 / (nu : ℝ)))
        ((1/4) * Real.sqrt ((h0 : ℝ) / |(fx : ℝ)|)) ∧
    ∀ n : ℕ, (solverStep^[n] solver0).dt = dt := by
  constructor
  · have hc : ((dt_cfl : ℚ) : ℝ) = (1/4) * (h0 : ℝ) / ((c0 : ℝ) + (Umax : ℝ)) := by
      rw [dt_cfl]; push_cast; ring
    have hv : ((dt_viscous : ℚ) : ℝ) = (1/8) * (h0 : ℝ) ^ 2 / (nu : ℝ) := by
      rw [dt_viscous]; push_cast; ring
    rw [dt, hc, hv, dt_force]
  · exact solver_iter_dt

/-- C10: with the configured constants each stability limit is strictly
positive, hence `dt = 0.5*min(dt_cfl, dt_viscous, dt_force)` is strictly
positive, the accumulated time after `n` steps is `n*dt`, and the loop reaches
`tf` after at most `ceil(tf/dt)` steps (exactly 16000 here). -/
theorem solver_loop_terminates :
    0 < (dt_cfl : ℝ) ∧ 0 < (dt_viscous : ℝ) ∧ 0 < dt_force ∧ 0 < dt ∧
    (∀ n : ℕ, (solverStep^[n] solver0).t = n * dt) ∧
    ∃ N : ℕ, N ≤ Nat.ceil ((tf : ℝ) / dt) ∧ (tf : ℝ) ≤ (solverStep^[N] solver0).t := by
  refine ⟨?_, ?_, ?_, dt_pos, solver_iter_t, 16000, ?_, ?_⟩
  · rw [dt_cfl_val]; norm_num
  · rw [dt_viscous_val]; norm_num
  · exact lt_of_lt_of_le (by norm_num) dt_force_ge
  · have : (tf : ℝ) / dt = 16000 := by rw [dt_val, tf]; norm_num
    rw [this]
    norm_num
  · rw [solver_iter_t, dt_val, tf]
    norm_num

/-! ### Particle store primitives and the initial lattice (claim C7) -/

/-- Modelled from the spec: `extract_particles` of the particle-array storage
(`pysph.base.particle_array`, not under src/) copies the particles at the given
indices into a new collection.  A particle is moved as a whole record, so every
declared property is preserved; the element type `P` stands for the full
per-particle property record. -/
def extract_particles {P : Type} (C : List P) (idx : List ℕ) : List P :=
  idx.filterMap (fun i => C[i]?)

/-- Modelled from the spec: `remove_particles` deletes the particles at the
given indices in place, preserving the relative order of the survivors. -/
def remove_particles {P : Type} (C : List P) (idx : List ℕ) : List P :=
  ((List.range C.length).filter (fun i => decide (i ∉ idx))).filterMap (fun i => C[i]?)

/-- Index-selection loop of `create_particles` (source lines 66-72): collect,
in increasing order, the indices of the particles satisfying the predicate. -/
def selectIndices {P : Type} (pred : P → Bool) (C : List P) : List ℕ :=
  (List.range C.length).filter (fun i => (C[i]?.map pred).getD false)

lemma selectIndices_nil {P : Type} (pred : P → Bool) : selectIndices pred [] = [] := rfl

lemma selectIndices_cons {P : Type} (pred : P → Bool) (a : P) (C : List P) :
    selectIndices pred (a :: C) =
      if pred a then (0 : ℕ) :: (selectIndices pred C).map Nat.succ
      else (selectIndices pred C).map Nat.succ := by
  unfold selectIndices
  rw [List.length_cons, List.range_succ_eq_map, List.filter_cons, List.filter_map]
  have hf : ((fun i => (((a :: C)[i]?).map pred).getD false) ∘ Nat.succ)
      = (fun i => ((C[i]?).map pred).getD false) := by
    funext i; simp
  have h0 : (((a :: C)[0]?).map pred).getD false = pred a := by simp
  rw [hf, h0]

lemma extract_cons_zero {P : Type} (a : P) (C : List P) (tl : List ℕ) :
    extract_particles (a :: C) (0 :: tl) = a :: extract_particles (a :: C) tl := by
  simp [extract_particles]

lemma extract_cons_succ {P : Type} (a : P) (C : List P) (tl : List ℕ) :
    extract_particles (a :: C) (tl.map Nat.succ) = extract_particles C tl := by
  unfold extract_particles
  rw [List.filterMap_map]
  congr 1
  funext i
  simp

lemma extract_select {P : Type} (pred : P → Bool) (C : List P) :
    extract_particles C (selectIndices pred C) = C.filter pred := by
  induction C with
  | nil => rfl
  | cons a C ih =>
    rw [selectIndices_cons]
    by_cases h : pred a
    · rw [if_pos h, extract_cons_zero, extract_cons_succ, ih,
        List.filter_cons_of_pos h]
    · rw [if_neg h, extract_cons_succ, ih,
        List.filter_cons_of_neg (by simp [h])]

lemma succ_mem_selectIndices_cons {P : Type} (pred : P → Bool) (a : P) (C : List P)
    (i : ℕ) : (Nat.succ i ∈ selectIndices pred (a :: C)) ↔ i ∈ selectIndices pred C := by
  rw [selectIndices_cons]
  by_cases h : pred a
  · rw [if_pos h]
    simp [Nat.succ_ne_zero, List.mem_map]
  · rw [if_neg h]
    simp [List.mem_map]

lemma zero_mem_selectIndices_cons {P : Type} (pred : P → Bool) (a : P) (C : List P) :
    ((0 : ℕ) ∈ selectIndices pred (a :: C)) ↔ pred a = true := by
  rw [selectIndices_cons]
  by_cases h : pred a
  · simp [h]
  · simp [h, List.mem_map]

lemma remove_select {P : Type} (pred : P → Bool) (C : List P) :
    remove_particles C (selectIndices pred C) = C.filter (fun p => !(pred p)) := by
  induction C with
  | nil => rfl
  | cons a C ih =>
    unfold remove_particles
    rw [List.length_cons, List.range_succ_eq_map, List.filter_cons, List.filter_map]
    have hf : ((fun i => decide (i ∉ selectIndices pred (a :: C))) ∘ Nat.succ)
        = (fun i => decide (i ∉ selectIndices pred C)) := by
      funext i
      simp only [Function.comp_apply, decide_eq_decide]
      exact not_congr (succ_mem_selectIndices_cons pred a C i)
    rw [hf]
    have hmap : (((List.range C.length).filter
          (fun i => decide (i ∉ selectIndices pred C))).map Nat.succ).filterMap
          (fun i => (a :: C)[i]?)
        = remove_particles C (selectIndices pred C) := by
      rw [List.filterMap_map]
      have hg : ((fun i => (a :: C)[i]?) ∘ Nat.succ) = (fun i : ℕ => C[i]?) := by
        funext i; simp
      rw [hg]
      rfl
    by_cases h : pred a
    · have h0 : decide ((0 : ℕ) ∉ selectIndices pred (a :: C)) = false := by
        simp [zero_mem_selectIndices_cons, h]
      rw [h0, if_neg (by simp), hmap, ih, List.filter_cons_of_neg (by simp [h])]
    · have h0 : decide ((0 : ℕ) ∉ selectIndices pred (a :: C)) = true := by
        simp [zero_mem_selectIndices_cons, h]
      rw [h0, if_pos rfl, List.filterMap_cons]
      simp only [List.getElem?_cons_zero]
      rw [hmap, ih, List.filter_cons_of_pos (by simp [h])]

/-- Embedding of `np.arange(start, stop, step)` for positive rational step:
the values `start + k*step` for `k = 0, ..., ceil((stop-start)/step) - 1`. -/
def arange (start stop step : ℚ) : List ℚ :=
  (List.range (Int.toNat ⌈(stop - start) / step⌉)).map (fun k => start + (k : ℚ) * step)

/-- Lattice abscissae `_x = np.arange(dx/2, L, dx)` (source line 61). -/
def lattice_x : List ℚ := arange (dx/2) L dx

/-- Lattice ordinates `_y = np.arange(dx/2, H, dx)` (source line 62). -/
def lattice_y : List ℚ := arange (dx/2) H dx

/-- The flattened meshgrid of `create_particles` (source line 63): row-major
pairs `(x, y)`, `y` varying over rows, `x` over columns.  A particle at this
point of the set-up is its coordinate pair; all other properties of
`get_particle_array` are uniform defaults. -/
def particles0 : List (ℚ × ℚ) :=
  lattice_y.flatMap (fun yv => lattice_x.map (fun xv => (xv, yv)))

/-- Fluid predicate of `create_particles` (source line 70):
`sqrt((xi-cx)^2 + (yi-cy)^2) > a` with `cx = L/2`, `cy = H/2`; since both
sides are nonnegative this is equivalent to the comparison of squares, which
keeps the predicate inside ℚ. -/
def isFluid (p : ℚ × ℚ) : Bool :=
  decide (a^2 < (p.1 - L/2)^2 + (p.2 - H/2)^2)

/-- The fluid array: `solid.extract_particles(indices)` (source line 78),
where `indices` selects the particles outside the cylinder. -/
def fluid : List (ℚ × ℚ) := extract_particles particles0 (selectIndices isFluid particles0)

/-- The solid array after `solid.remove_particles(indices)` (source line 79). -/
def solid : List (ℚ × ℚ) := remove_particles particles0 (selectIndices isFluid particles0)

/-- C7: partitioning the initial lattice by the fluid predicate via
`extract_particles` followed by `remove_particles` yields the matching
particles in `fluid` and exactly the non-matching ones in `solid`, the two are
disjoint, and their concatenation is a permutation (multiset re-merge) of the
original collection; particles are moved as whole property records. -/
theorem partition_remerge_reconstructs :
    fluid = particles0.filter isFluid ∧
    solid = particles0.filter (fun p => !(isFluid p)) ∧
    fluid.all (fun p => decide (p ∉ solid)) = true ∧
    (fluid ++ solid).Perm particles0 := by
  have hf : fluid = particles0.filter isFluid := extract_select isFluid particles0
  have hs : solid = particles0.filter (fun p => !(isFluid p)) :=
    remove_select isFluid particles0
  refine ⟨hf, hs, ?_, ?_⟩
  · rw [List.all_eq_true]
    intro p hp
    have h1 : isFluid p = true := (List.mem_filter.mp (hf ▸ hp)).2
    simp only [decide_eq_true_eq]
    intro hps
    have h2 := (List.mem_filter.mp (hs ▸ hps)).2
    simp [h1] at h2
  · rw [hf, hs]
    exact List.filter_append_perm isFluid particles0

/-! ### Equation pipeline (claims C1, C2, C8) -/

/-- The equation classes instantiated by `create_equations`, together with
their named numeric parameters (the classes live in
`pysph.sph.wc.transport_velocity`, outside src/; here they are structural
descriptors of the pipeline). -/
inductive EqKind where
  | summationDensity : EqKind
  | stateEquation (p0 rho0 b : ℚ) : EqKind
  | setWallVelocity : EqKind
  | solidWallPressureBC (gx rho0 p0 b : ℚ) : EqKind
  | momentumEquationPressureGradient (gx pb : ℚ) : EqKind
  | momentumEquationViscosity (nu : ℚ) : EqKind
  | solidWallNoSlipBC (nu : ℚ) : EqKind
  | momentumEquationArtificialStress : EqKind
  deriving DecidableEq, Repr

/-- One Equation instance of the pipeline: its class, destination collection
and source collections (`sources=None` is embedded as the empty list). -/
structure Equation where
  kind : EqKind
  dest : String
  sources : List String
  deriving DecidableEq, Repr

/-- A Group of the pipeline: an ordered list of Equations plus the `real`
flag it is constructed with. -/
structure Group where
  equations : List Equation
  real : Bool
  deriving DecidableEq, Repr

/-- The pipeline built by `create_equations` (source lines 153-209), embedded
group by group in source order. -/
def create_equations : List Group :=
  [ { equations :=
        [ { kind := .summationDensity, dest := "fluid", sources := ["fluid", "solid"] } ],
      real := false },
    { equations :=
        [ { kind := .stateEquation p0 rho0 1, dest := "fluid", sources := [] },
          { kind := .setWallVelocity, dest := "solid", sources := ["fluid"] } ],
      real := false },
    { equations :=
        [ { kind := .solidWallPressureBC fx rho0 p0 1, dest := "solid",
            sources := ["fluid"] } ],
      real := false },
    { equations :=
        [ { kind := .momentumEquationPressureGradient fx p0, dest := "fluid",
            sources := ["fluid", "solid"] },
          { kind := .momentumEquationViscosity nu, dest := "fluid",
            sources := ["fluid"] },
          { kind := .solidWallNoSlipBC nu, dest := "fluid", sources := ["solid"] },
          { kind := .momentumEquationArtificialStress, dest := "fluid",
            sources := ["fluid"] } ],
      real := true } ]

/-- Modelled from the spec: a Group's "requires-remote-data" locality flag
(the `Group` class of `pysph.sph.equation` is not under src/).  A Group
constructed with `real=False` is evaluated also for remote/ghost destination
particles, so requires-remote-data is the negation of `real`. -/
def requiresRemoteData (g : Group) : Bool := !g.real

/-- C1: the pipeline has exactly four Groups in the order density summation
(fluid from fluid and solid sources), state equation plus wall-velocity
extrapolation, wall pressure boundary condition, momentum accelerations
(pressure gradient, viscosity, no-slip, artificial stress); the first group
requires remote data and the final momentum group is local-only. -/
theorem create_equations_stage_order :
    create_equations.length = 4 ∧
    (create_equations.map fun g => g.equations.map Equation.kind) =
      [[.summationDensity],
       [.stateEquation p0 rho0 1, .setWallVelocity],
       [.solidWallPressureBC fx rho0 p0 1],
       [.momentumEquationPressureGradient fx p0, .momentumEquationViscosity nu,
        .solidWallNoSlipBC nu, .momentumEquationArtificialStress]] ∧
    (create_equations.map fun g => g.equations.map Equation.dest) =
      [["fluid"], ["fluid", "solid"], ["solid"],
       ["fluid", "fluid", "fluid", "fluid"]] ∧
    (create_equations.map fun g => g.equations.map Equation.sources) =
      [[["fluid", "solid"]], [[], ["fluid"]], [["fluid"]],
       [["fluid", "solid"], ["fluid"], ["solid"], ["fluid"]]] ∧
    ((create_equations.head?).map requiresRemoteData) = some true ∧
    ((create_equations.getLast?).map requiresRemoteData) = some false := by
  refine ⟨rfl, rfl, rfl, rfl, rfl, rfl⟩

/-- Modelled from the spec: the state-equation update rule
(`pysph.sph.wc.transport_velocity.StateEquation`, not under src/): each
particle's pressure is set to `p0 * (rho/rho0 - b)`. -/
def stateEquationPressure (p0v rho0v b rho : ℚ) : ℚ := p0v * (rho / rho0v - b)

/-- C2: with the configured parameters `p0`, `rho0` and `b = 1`, a particle
whose density equals the reference density is assigned pressure exactly 0. -/
theorem stateEquation_zero_at_reference (rho : ℚ) (h : rho = rho0) :
    stateEquationPressure p0 rho0 1 rho = 0 := by
  subst h
  unfold stateEquationPressure
  rw [div_self (show rho0 ≠ 0 by norm_num [rho0])]
  ring

/-- Witness for C2 at the concrete density `rho0`. -/
theorem stateEquation_zero_at_reference_witness :
    stateEquationPressure p0 rho0 1 rho0 = 0 :=
  stateEquation_zero_at_reference rho0 rfl

/-! ### Ghost particles are read-only during a step (claim C8) -/

/-- Modelled from the spec: the state of one time step — the real particle
arrays together with the ghost copies owned by the Domain Manager. -/
structure StepState (α β : Type) where
  real : α
  ghost : β

/-- Modelled from the spec: a full solver time step (the Solver/Integrator
machinery is not under src/).  `regen` is the Domain Manager's ghost
regeneration from real-particle state; `advance` is the pipeline evaluation
plus integrator update, which reads the ghosts but produces only the new
real-particle state.  The step's ghosts are re-created from the advanced real
state; they are never advanced directly. -/
def timeStep {α β : Type} (regen : α → β) (advance : α → β → α)
    (s : StepState α β) : StepState α β :=
  let r := advance s.real (regen s.real)
  { real := r, ghost := regen r }

/-- C8: every Equation of the pipeline writes only to the real particle
arrays `fluid` and `solid` (never to a ghost collection), and in the step
model the ghost state after a step is always the regeneration image of the
committed real state while the real state is advanced from real particles and
the read-only ghosts. -/
theorem ghosts_never_written :
    (create_equations.all fun g => g.equations.all fun e =>
        e.dest == "fluid" || e.dest == "solid") = true ∧
    ∀ (α β : Type) (regen : α → β) (advance : α → β → α) (s : StepState α β),
      (timeStep regen advance s).ghost = regen (timeStep regen advance s).real ∧
      (timeStep regen advance s).real = advance s.real (regen s.real) :=
  ⟨rfl, fun _ _ _ _ _ => ⟨rfl, rfl⟩⟩

/-! ### Domain manager: configuration, ghost layer, wrap (claims C5, C6) -/

/-- Modelled from the spec: the Domain Manager configuration
(`pysph.base.nnps.DomainManager`, not under src/): an axis-aligned box with
per-axis periodicity flags and an optional ghost-layer width argument. -/
structure DomainManager where
  xmin : ℚ
  xmax : ℚ
  ymin : ℚ
  ymax : ℚ
  periodic_in_x : Bool
  periodic_in_y : Bool
  ghost_layer : Option ℚ
  deriving DecidableEq, Repr

/-- Embedding of `create_domain` (source lines 51-57): the DomainManager is constructed
with box bounds and periodicity flags only; no ghost-layer width argument is
passed. -/
def create_domain : DomainManager :=
  { xmin := 0, xmax := L, ymin := 0, ymax := H,
    periodic_in_x := true, periodic_in_y := true, ghost_layer := none }

/-- Modelled from the spec: the kernel contract exposes a compact support
radius that is a fixed multiple of the smoothing length; for the configured
`QuinticSpline` (source line 144) the multiple is 3. -/
def quinticSupportRadius (h : ℚ) : ℚ := 3 * h

/-- C5 counterexample: the module constant `ghost_extent` is not the ghost
layer of the DomainManager created by `create_domain`; the constructor call
passes no ghost-layer width at all. -/
theorem ghost_extent_not_domain_layer :
    ¬ create_domain.ghost_layer = some ghost_extent := by
  simp [create_domain]

/-- C5 amended: `ghost_extent = 5*1.5*dx` does exceed the quintic-spline
compact support radius `3*h0`, so the declared value would satisfy the
required inequality; but the script performs no such setup check and never
passes `ghost_extent` to the DomainManager, which is created with box bounds
and periodicity flags only. -/
theorem ghost_extent_exceeds_kernel_support :
    ghost_extent = 5 * (15/10) * dx ∧
    quinticSupportRadius h0 ≤ ghost_extent ∧
    create_domain.ghost_layer = none := by
  refine ⟨rfl, ?_, rfl⟩
  rw [quinticSupportRadius, h0_val]
  norm_num [ghost_extent, dx, L, nx]

/-- Modelled from the spec: the rational modulo used by the Domain Manager's
`wrap`: `x mod m = x - m * floor(x/m)`. -/
def qmod (x m : ℚ) : ℚ := x - m * ⌊x / m⌋

/-- Modelled from the spec: wrap of one coordinate into the periodic interval
`[lo, hi)` by modulo arithmetic. -/
def wrap1 (lo hi x : ℚ) : ℚ := lo + qmod (x - lo) (hi - lo)

/-- Modelled from the spec: the Domain Manager's `wrap` applied to a particle
position, acting on each periodic axis of the configured domain. -/
def wrap (d : DomainManager) (p : ℚ × ℚ) : ℚ × ℚ :=
  (if d.periodic_in_x then wrap1 d.xmin d.xmax p.1 else p.1,
   if d.periodic_in_y then wrap1 d.ymin d.ymax p.2 else p.2)

lemma qmod_eq_fract (x m : ℚ) (hm : m ≠ 0) : qmod x m = m * Int.fract (x / m) := by
  unfold qmod Int.fract
  field_simp

lemma qmod_nonneg (x m : ℚ) (hm : 0 < m) : 0 ≤ qmod x m := by
  rw [qmod_eq_fract x m hm.ne']
  exact mul_nonneg hm.le (Int.fract_nonneg _)

lemma qmod_lt (x m : ℚ) (hm : 0 < m) : qmod x m < m := by
  rw [qmod_eq_fract x m hm.ne']
  calc m * Int.fract (x / m) < m * 1 :=
        (mul_lt_mul_left hm).mpr (Int.fract_lt_one _)
    _ = m := mul_one m

lemma wrap1_mem (lo hi x : ℚ) (h : lo < hi) :
    lo ≤ wrap1 lo hi x ∧ wrap1 lo hi x < hi := by
  have hm : 0 < hi - lo := by linarith
  have h1 := qmod_nonneg (x - lo) (hi - lo) hm
  have h2 := qmod_lt (x - lo) (hi - lo) hm
  unfold wrap1
  constructor <;> linarith

/-- C6: after the Domain Manager's `wrap`, every particle position lies in
`[0, L)` on the x axis and in `[0, H)` on the y axis, for the domain
configured periodic in both axes with box `[0,L] x [0,H]`. -/
theorem wrap_into_box (p : ℚ × ℚ) :
    0 ≤ (wrap create_domain p).1 ∧ (wrap create_domain p).1 < L ∧
    0 ≤ (wrap create_domain p).2 ∧ (wrap create_domain p).2 < H := by
  have hx := wrap1_mem 0 L p.1 (by norm_num [L])
  have hy := wrap1_mem 0 H p.2 (by norm_num [H, L])
  have e : wrap create_domain p = (wrap1 0 L p.1, wrap1 0 H p.2) := rfl
  rw [e]
  exact ⟨hx.1, hx.2, hy.1, hy.2⟩

/-! ### Transport-velocity PEC stepping (claims C4, C9) -/

/-- Per-particle committed state advanced by the integrator: position,
momentum velocity and advection (hat) velocity. -/
structure ParticleState where
  x : ℚ
  y : ℚ
  u : ℚ
  v : ℚ
  uhat : ℚ
  vhat : ℚ
  deriving DecidableEq, Repr

/-- Accelerations produced by a pipeline evaluation: momentum and advection
components. -/
structure Accel where
  au : ℚ
  av : ℚ
  auhat : ℚ
  avhat : ℚ
  deriving DecidableEq, Repr

/-- Modelled from the spec: the `predict` transition of the
predictor-evaluate-corrector integrator with the transport-velocity stepper
(`pysph.sph.integrator.PECIntegrator` and
`pysph.sph.integrator_step.TransportVelocityStep`, not under src/): advance
momentum velocity, advection velocity and position by a half step using the
accelerations of the prior step, positions moving with the advection
velocity. -/
def predict (dtv : ℚ) (acc : Accel) (s : ParticleState) : ParticleState :=
  let u1 := s.u + dtv/2 * acc.au
  let v1 := s.v + dtv/2 * acc.av
  let uhat1 := s.uhat + dtv/2 * acc.auhat
  let vhat1 := s.vhat + dtv/2 * acc.avhat
  { x := s.x + dtv/2 * uhat1, y := s.y + dtv/2 * vhat1,
    u := u1, v := v1, uhat := uhat1, vhat := vhat1 }

/-- Modelled from the spec: the `correct` transition: advance from the
original (pre-predict) state by a full step using the evaluated
accelerations, committing the new state. -/
def correct (dtv : ℚ) (acc : Accel) (s0 : ParticleState) : ParticleState :=
  let u1 := s0.u + dtv * acc.au
  let v1 := s0.v + dtv * acc.av
  let uhat1 := s0.uhat + dtv * acc.auhat
  let vhat1 := s0.vhat + dtv * acc.avhat
  { x := s0.x + dtv * uhat1, y := s0.y + dtv * vhat1,
    u := u1, v := v1, uhat := uhat1, vhat := vhat1 }

/-- Modelled from the spec: one full predictor-evaluate-corrector cycle: the
predictor advances a half step with the prior accelerations, the pipeline is
re-evaluated (`evalAccel`) at the predicted state, and the corrector commits
a full step from the original pre-predict state with the evaluated
accelerations. -/
def pecStep (dtv : ℚ) (evalAccel : ParticleState → Accel) (accPrev : Accel)
    (s0 : ParticleState) : ParticleState :=
  correct dtv (evalAccel (predict dtv accPrev s0)) s0

/-- C4: the committed state of one PEC cycle is the corrector applied to the
original pre-predict state with the accelerations evaluated at the predicted
state, and the corrector advances position, momentum velocity and advection
velocity from that original state by one full step with those
accelerations. -/
theorem pec_correct_from_original (dtv : ℚ) (evalAccel : ParticleState → Accel)
    (accPrev : Accel) (s0 : ParticleState) :
    pecStep dtv evalAccel accPrev s0
      = correct dtv (evalAccel (predict dtv accPrev s0)) s0 ∧
    ∀ acc : Accel,
      (correct dtv acc s0).u = s0.u + dtv * acc.au ∧
      (correct dtv acc s0).v = s0.v + dtv * acc.av ∧
      (correct dtv acc s0).uhat = s0.uhat + dtv * acc.auhat ∧
      (correct dtv acc s0).vhat = s0.vhat + dtv * acc.avhat ∧
      (correct dtv acc s0).x = s0.x + dtv * (correct dtv acc s0).uhat ∧
      (correct dtv acc s0).y = s0.y + dtv * (correct dtv acc s0).vhat :=
  ⟨rfl, fun _ => ⟨rfl, rfl, rfl, rfl, rfl, rfl⟩⟩

/-- State of one particle array as touched by the integrator: positions,
masses (and hence particle count). -/
structure ParticleArrayState where
  x : List ℚ
  y : List ℚ
  m : List ℚ
  deriving DecidableEq, Repr

/-- Modelled from the spec: one integrator step advances exactly the
collections for which a stepper was supplied; a collection without a stepper
is untouched.  `σ` is the per-collection state type. -/
def integratorStep {σ : Type} (steppers : String → Option (σ → σ))
    (st : String → σ) : String → σ :=
  fun nm =>
    match steppers nm with
    | some f => f (st nm)
    | none => st nm

/-- Name of the fluid particle array. -/
def fluidName : String := "fluid"

/-- Name of the solid (wall) particle array. -/
def solidName : String := "solid"

/-- The stepper table of `create_solver` (source line 146):
`PECIntegrator(fluid=TransportVelocityStep())` supplies a stepper for the
fluid array only. -/
def integratorSteppers {σ : Type} (tvstep : σ → σ) : String → Option (σ → σ) :=
  fun nm => if nm = fluidName then some tvstep else none

lemma integrator_iter_solid {σ : Type} (tvstep : σ → σ)
    (st : String → σ) (n : ℕ) :
    ((integratorStep (integratorSteppers tvstep))^[n] st) solidName = st solidName := by
  induction n with
  | zero => rfl
  | succ k ih =>
    rw [Function.iterate_succ_apply']
    show integratorStep (integratorSteppers tvstep)
      ((integratorStep (integratorSteppers tvstep))^[k] st) solidName = st solidName
    rw [integratorStep, integratorSteppers]
    simp only [solidName, fluidName, String.reduceEq, if_false]
    exact ih

/-- C9: since the integrator is constructed with a stepper only for the fluid
array, the solid array's positions, masses and particle count are unchanged
by every number of integrator steps; only fluid state is advanced. -/
theorem solid_unchanged_by_integrator (tvstep : ParticleArrayState → ParticleArrayState)
    (st : String → ParticleArrayState) (n : ℕ) :
    (((integratorStep (integratorSteppers tvstep))^[n] st) solidName).x
      = (st solidName).x ∧
    (((integratorStep (integratorSteppers tvstep))^[n] st) solidName).y
      = (st solidName).y ∧
    (((integratorStep (integratorSteppers tvstep))^[n] st) solidName).m
      = (st solidName).m ∧
    (((integratorStep (integratorSteppers tvstep))^[n] st) solidName).x.length
      = (st solidName).x.length := by
  rw [integrator_iter_solid]
  exact ⟨rfl, rfl, rfl, rfl⟩

end LatticeCylinders
